import Mathlib

/-!
ParkFasto backend — parking controller, shallow embedding.

A shallow embedding of `src/controller/parking.controller.js`: the lot
occupancy store, the session ledger and the six orchestrator operations
(`startSession`, `bookParking`, `guardEntry`, `guardExit`, `cancelBooking`,
`completeSession`).  The document store is modelled as in-memory lists kept
in creation order; Mongo document ids are `Nat`; timestamps are integer
milliseconds.  `findOne` is first-match in natural (creation) order;
`findOne` combined with `sort({createdAt:-1})` is first-match on the
reversed list.  `findByIdAndUpdate` updates the first document whose id
matches.  HTTP responses are reduced to the status code, the `success`
flag and the `message` field of the JSON envelope.
-/

namespace ParkFasto

/-- A parking lot document (`ParkingLot` model): capacity, occupancy
counter, derived status, hourly rate and lot type. -/
structure Lot where
  id : Nat
  name : String
  totalSpots : Int
  occupiedSpots : Int
  status : String
  pricePerHour : Int
  type : String
  deriving DecidableEq

/-- A parking session document (`ParkingSession` model).  `status` ranges
over "booked" / "active" / "completed" / "canceled"; nullable fields are
`Option`.  List position in the store is creation order (`createdAt`). -/
structure Session where
  id : Nat
  user : Nat
  parkingLot : Nat
  status : String
  vehicleType : Option String
  slots : Int
  startTime : Option Int
  endTime : Option Int
  totalAmount : Option Int
  deriving DecidableEq

/-- A notification document (`Notification` model), append-only. -/
structure Notif where
  user : Nat
  type : String
  title : String
  message : String
  lotRef : Option Nat
  sessionRef : Nat
  deriving DecidableEq

/-- The database state: all lots, all sessions (in creation order), all
notifications, and the id counter used for fresh session documents. -/
structure St where
  lots : List Lot
  sessions : List Session
  notifs : List Notif
  nextId : Nat
  deriving DecidableEq

/-- The observable part of an HTTP response: status code plus the
`success` and `message` fields of the JSON envelope. -/
structure Result where
  code : Nat
  success : Bool
  message : Option String
  deriving DecidableEq

/-- Embeds `ParkingLot.findById` — first lot whose id matches. -/
def getLot (lid : Nat) (lots : List Lot) : Option Lot :=
  lots.find? (fun l => l.id == lid)

/-- Embeds `ParkingLot.findByIdAndUpdate` — rewrite the first lot whose id
matches, leave the rest untouched. -/
def updateLot (lid : Nat) (f : Lot → Lot) : List Lot → List Lot
  | [] => []
  | l :: ls => if l.id == lid then f l :: ls else l :: updateLot lid f ls

/-- Embeds `session.save()` after mutating a fetched document — rewrite the first
session whose id matches. -/
def updateSession (sid : Nat) (f : Session → Session) : List Session → List Session
  | [] => []
  | x :: xs => if x.id == sid then f x :: xs else x :: updateSession sid f xs

/-- Source `resolveLotStatus(occupiedSpots, totalSpots)`:
"full" when `occupiedSpots >= totalSpots`, else "available". -/
def resolveLotStatus (occupiedSpots totalSpots : Int) : String :=
  if occupiedSpots ≥ totalSpots then "full" else "available"

/-- Source `syncLotStatus(parkingLotId, occupiedDelta)`: `$inc` the lot's
`occupiedSpots` by `occupiedDelta` (returning the updated document), then
recompute the status and write it back when it changed.  Returns `none`
and leaves the store untouched when the lot does not exist. -/
def syncLotStatus (parkingLotId : Nat) (occupiedDelta : Int) (lots : List Lot) :
    Option Lot × List Lot :=
  match getLot parkingLotId lots with
  | none => (none, lots)
  | some l =>
    let updatedLot : Lot := { l with occupiedSpots := l.occupiedSpots + occupiedDelta }
    let lots1 := updateLot parkingLotId
      (fun x => { x with occupiedSpots := x.occupiedSpots + occupiedDelta }) lots
    let newStatus := resolveLotStatus updatedLot.occupiedSpots updatedLot.totalSpots
    let lots2 :=
      if updatedLot.status ≠ newStatus then
        updateLot parkingLotId (fun x => { x with status := newStatus }) lots1
      else lots1
    (some updatedLot, lots2)

/-- Embeds `Math.ceil(elapsedMs / 3600000)` — exact ceiling of the elapsed
milliseconds divided by one hour (Int `/` is floor division for a
positive divisor, so the ceiling is `-((-a) / b)`). -/
def ceilHours (elapsedMs : Int) : Int :=
  -((-elapsedMs) / 3600000)

/-- Embeds `Math.max(1, Math.ceil((endTime - startTime) / (1000*60*60)))` — the
billed duration in hours, as computed in `guardExit` / `completeSession`. -/
def durationHours (startTime endTime : Int) : Int :=
  max 1 (ceilHours (endTime - startTime))

/-- Embeds `durationHours * pricePerHour` — the settlement charge computed in
`guardExit` / `completeSession`. -/
def computeCharge (startTime endTime pricePerHour : Int) : Int :=
  durationHours startTime endTime * pricePerHour

/-- Filter for `findOne({user, status:"active"})`. -/
def isActiveFor (u : Nat) (x : Session) : Bool :=
  x.user == u && x.status == "active"

/-- Filter for `findOne({user, parkingLot, status:"active"})`. -/
def isActiveAt (u lid : Nat) (x : Session) : Bool :=
  x.user == u && x.parkingLot == lid && x.status == "active"

/-- Filter for `findOne({user, parkingLot, status:"booked"})`. -/
def isBookedAt (u lid : Nat) (x : Session) : Bool :=
  x.user == u && x.parkingLot == lid && x.status == "booked"

/-- Embeds `findOne({user, parkingLot, status:"booked"}).sort({createdAt:-1})` —
the most recently created booked session for the (user, lot) pair. -/
def findNewestBooked (u lid : Nat) (sessions : List Session) : Option Session :=
  sessions.reverse.find? (isBookedAt u lid)

/-- Modelled from the spec: the `ParkingSession` schema
(`models/ParkingSession.model.js` is not among the sources) fills the
fields the controller omits at creation: `status` defaults to "active",
`slots` to 1 and `startTime` to the current time; `endTime` and
`totalAmount` stay unset.  Used by `startSession`, which passes only the
user, the lot and the vehicle type. -/
def defaultSession (id u lid : Nat) (vehicleType : Option String) (now : Int) : Session :=
  { id := id, user := u, parkingLot := lid, status := "active",
    vehicleType := vehicleType, slots := 1,
    startTime := some now, endTime := none, totalAmount := none }

/-- Source `startSession`: reject with 400 when the caller already has an active
session, otherwise create a session (schema defaults: active, 1 slot,
startTime = now) and apply a +1 occupancy sync on the chosen lot. -/
def startSession (userId parkingLotId : Nat) (vehicleType : Option String)
    (now : Int) (s : St) : Result × St :=
  match s.sessions.find? (isActiveFor userId) with
  | some _ =>
    ({ code := 400, success := false,
       message := some "User already has an active session" }, s)
  | none =>
    let session := defaultSession s.nextId userId parkingLotId vehicleType now
    let lots2 := (syncLotStatus parkingLotId 1 s.lots).2
    ({ code := 201, success := true, message := none },
     { s with sessions := s.sessions ++ [session], nextId := s.nextId + 1,
              lots := lots2 })

/-- The result of `Number(slots)` on the request value: either an integer
(`Number.isInteger` true) or not (`NaN` / fractional). -/
inductive NumVal where
  | int (n : Int)
  | nonInt
  deriving DecidableEq

/-- The `bookParking` request body.  Absent fields are `none`; `slots`
holds the `Number(...)` conversion of the supplied value.  `vehicleType`
may be supplied but is never read by the controller. -/
structure BookReq where
  parkingLotId : Option Nat
  slots : Option NumVal
  startTime : Option Int
  endTime : Option Int
  vehicleType : Option String
  deriving DecidableEq

/-- The `!Number.isInteger(requestedSlots) || requestedSlots < 1` check of
`bookParking`, applied to the `slots` request field (default 1). -/
def slotsInvalid (slots : Option NumVal) : Bool :=
  match slots.getD (NumVal.int 1) with
  | NumVal.nonInt => true
  | NumVal.int k => k < 1

/-- Source `bookParking`: validate the request (400 on missing fields or a bad
slot count), 404 on an unknown lot, 400 when fewer than `requestedSlots`
spots are free, and otherwise create a booked session for the requested
window — the vehicle type is derived from the lot's type — and reserve
the slots with a `+requestedSlots` occupancy sync. -/
def bookParking (userId : Nat) (req : BookReq) (s : St) : Result × St :=
  match req.parkingLotId, req.startTime, req.endTime with
  | some parkingLotId, some startTime, some endTime =>
    match req.slots.getD (NumVal.int 1) with
    | NumVal.nonInt =>
      ({ code := 400, success := false,
         message := some "slots must be a positive whole number" }, s)
    | NumVal.int requestedSlots =>
      if requestedSlots < 1 then
        ({ code := 400, success := false,
           message := some "slots must be a positive whole number" }, s)
      else
        match getLot parkingLotId s.lots with
        | none =>
          ({ code := 404, success := false,
             message := some "Parking lot not found" }, s)
        | some lot =>
          if lot.totalSpots - lot.occupiedSpots < requestedSlots then
            ({ code := 400, success := false,
               message := some "Not enough available slots for requested booking" }, s)
          else
            let session : Session :=
              { id := s.nextId, user := userId, parkingLot := parkingLotId,
                status := "booked",
                vehicleType := some (if lot.type == "bike" then "bike" else "car"),
                slots := requestedSlots,
                startTime := some startTime, endTime := some endTime,
                totalAmount := none }
            let lots2 := (syncLotStatus parkingLotId requestedSlots s.lots).2
            ({ code := 201, success := true, message := none },
             { s with sessions := s.sessions ++ [session],
                      nextId := s.nextId + 1, lots := lots2 })
  | _, _, _ =>
    ({ code := 400, success := false,
       message := some "parkingLotId, startTime and endTime are required" }, s)

/-- Source `guardEntry`: activate the most recent booked session of the (user,
lot) pair, setting its start time only; when none exists, create a walk-in
session directly in the active state (schema default: 1 slot) and apply a
+1 occupancy sync.  Always responds 200 and records a checkin
notification. -/
def guardEntry (userId parkingLotId : Nat) (now : Int) (s : St) : Result × St :=
  let lotName := (getLot parkingLotId s.lots).map (fun l => l.name)
  match findNewestBooked userId parkingLotId s.sessions with
  | none =>
    let session : Session :=
      { id := s.nextId, user := userId, parkingLot := parkingLotId,
        status := "active", vehicleType := none, slots := 1,
        startTime := some now, endTime := none, totalAmount := none }
    let lots2 := (syncLotStatus parkingLotId 1 s.lots).2
    let notif : Notif :=
      { user := userId, type := "checkin", title := "Check-in Successful",
        message := "Your vehicle check-in was recorded at " ++
          lotName.getD "the parking lot" ++ ".",
        lotRef := some parkingLotId, sessionRef := session.id }
    ({ code := 200, success := true, message := some "Entry successful" },
     { s with sessions := s.sessions ++ [session], nextId := s.nextId + 1,
              lots := lots2, notifs := s.notifs ++ [notif] })
  | some sess =>
    let sessions2 := updateSession sess.id
      (fun x => { x with status := "active", startTime := some now }) s.sessions
    let notif : Notif :=
      { user := userId, type := "checkin", title := "Check-in Successful",
        message := "Your vehicle check-in was recorded at " ++
          lotName.getD "the parking lot" ++ ".",
        lotRef := some parkingLotId, sessionRef := sess.id }
    ({ code := 200, success := true, message := some "Entry successful" },
     { s with sessions := sessions2, notifs := s.notifs ++ [notif] })

/-- Source `guardExit`: 404 when the (user, lot) pair has no active session.
Otherwise the session's lot is joined by `populate("parkingLot")`; the
charge formula reads `session.parkingLot.pricePerHour` with no null
guard, so a missing lot raises and the error handler surfaces 500 with no
state change.  On the normal path: settle the charge, mark the session
completed, release `max(1, slots)` occupancy and record a checkout
notification.  A missing `startTime` makes the JS arithmetic produce
`NaN`; the stored amount is modelled as `none` in that (unreachable for
active sessions) case. -/
def guardExit (userId parkingLotId : Nat) (now : Int) (s : St) : Result × St :=
  match s.sessions.find? (isActiveAt userId parkingLotId) with
  | none =>
    ({ code := 404, success := false,
       message := some "No active session found for this user" }, s)
  | some sess =>
    match getLot sess.parkingLot s.lots with
    | none => ({ code := 500, success := false, message := none }, s)
    | some lot =>
      let totalAmount := sess.startTime.map
        (fun st => computeCharge st now lot.pricePerHour)
      let sessions2 := updateSession sess.id
        (fun x => { x with endTime := some now, totalAmount := totalAmount,
                           status := "completed" }) s.sessions
      let slotsToRelease := max 1 sess.slots
      let lots2 := (syncLotStatus parkingLotId (-slotsToRelease) s.lots).2
      let notif : Notif :=
        { user := userId, type := "checkout", title := "Check-out Successful",
          message := "Your parking session was completed at " ++ lot.name ++
            ". Total: NPR " ++ toString (totalAmount.getD 0) ++ ".",
          lotRef := some parkingLotId, sessionRef := sess.id }
      ({ code := 200, success := true, message := some "Exit successful" },
       { s with sessions := sessions2, lots := lots2,
                notifs := s.notifs ++ [notif] })

/-- Source `cancelBooking`: 404 unless the caller owns a booked session with the
given id; otherwise mark it canceled, set its end time, release
`max(1, slots)` occupancy (a no-op when the lot is gone — the sync id is
null then and matches nothing) and record a booking notification. -/
def cancelBooking (userId bookingId : Nat) (now : Int) (s : St) : Result × St :=
  match s.sessions.find?
      (fun x => x.id == bookingId && x.user == userId && x.status == "booked") with
  | none =>
    ({ code := 404, success := false,
       message := some "Booked session not found or cannot be canceled" }, s)
  | some sess =>
    let populated := getLot sess.parkingLot s.lots
    let sessions2 := updateSession sess.id
      (fun x => { x with status := "canceled", endTime := some now }) s.sessions
    let slotsToRelease := max 1 sess.slots
    let lots2 := (syncLotStatus sess.parkingLot (-slotsToRelease) s.lots).2
    let notif : Notif :=
      { user := userId, type := "booking", title := "Booking Canceled",
        message := "Your booking at " ++
          (populated.map (fun l => l.name)).getD "the parking lot" ++
          " was canceled.",
        lotRef := if populated.isSome then some sess.parkingLot else none,
        sessionRef := sess.id }
    ({ code := 200, success := true, message := none },
     { s with sessions := sessions2, lots := lots2,
              notifs := s.notifs ++ [notif] })

/-- Source `completeSession`: 404 when the caller has no active session.  As in
`guardExit`, the populated lot is dereferenced for `pricePerHour` with no
null guard, so a missing lot surfaces 500 with no state change.  On the
normal path: settle the charge, mark the session completed and release
`max(1, slots)` occupancy.  No notification is recorded. -/
def completeSession (userId : Nat) (now : Int) (s : St) : Result × St :=
  match s.sessions.find? (isActiveFor userId) with
  | none =>
    ({ code := 404, success := false,
       message := some "No active session found" }, s)
  | some sess =>
    match getLot sess.parkingLot s.lots with
    | none => ({ code := 500, success := false, message := none }, s)
    | some lot =>
      let totalAmount := sess.startTime.map
        (fun st => computeCharge st now lot.pricePerHour)
      let sessions2 := updateSession sess.id
        (fun x => { x with endTime := some now, totalAmount := totalAmount,
                           status := "completed" }) s.sessions
      let slotsToRelease := max 1 sess.slots
      let lots2 := (syncLotStatus lot.id (-slotsToRelease) s.lots).2
      ({ code := 200, success := true, message := none },
       { s with sessions := sessions2, lots := lots2 })

/-! ## Concrete fixtures

Small concrete stores used to instantiate the theorems below. -/

/-- A two-spot car lot at rate 100/hr, initially empty. -/
def lotA : Lot :=
  { id := 1, name := "A", totalSpots := 2, occupiedSpots := 0,
    status := "available", pricePerHour := 100, type := "car" }

/-- A five-spot bike lot at rate 50/hr, initially empty. -/
def lotB : Lot :=
  { id := 2, name := "B", totalSpots := 5, occupiedSpots := 0,
    status := "available", pricePerHour := 50, type := "bike" }

/-- A store with the two lots and no sessions. -/
def demoSt : St := { lots := [lotA, lotB], sessions := [], notifs := [], nextId := 0 }

/-- A booked session: user 9 reserved 2 slots at lot 1. -/
def bookedSess : Session :=
  { id := 0, user := 9, parkingLot := 1, status := "booked",
    vehicleType := some "car", slots := 2,
    startTime := some 1000, endTime := some 5000, totalAmount := none }

/-- Store `demoSt` with `bookedSess` on file and the lot's two spots reserved. -/
def bookedSt : St :=
  { lots := [{ lotA with occupiedSpots := 2, status := "full" }, lotB],
    sessions := [bookedSess], notifs := [], nextId := 1 }

/-- An active session for user 1 at lot 1, started at time 0. -/
def activeSess : Session :=
  { id := 0, user := 1, parkingLot := 1, status := "active",
    vehicleType := none, slots := 1,
    startTime := some 0, endTime := none, totalAmount := none }

/-- Store `demoSt` with `activeSess` on file and one spot occupied. -/
def activeSt : St :=
  { lots := [{ lotA with occupiedSpots := 1 }, lotB],
    sessions := [activeSess], notifs := [], nextId := 1 }

/-- A completed (terminal) session for user 1 at lot 1. -/
def termSess : Session :=
  { id := 0, user := 1, parkingLot := 1, status := "completed",
    vehicleType := none, slots := 1,
    startTime := some 0, endTime := some 3600000, totalAmount := some 100 }

/-- A store holding only the terminal session `termSess`. -/
def termSt : St :=
  { lots := [lotA, lotB], sessions := [termSess], notifs := [], nextId := 1 }

/-- An active session whose lot (id 7) is not in the store. -/
def orphanSess : Session :=
  { id := 0, user := 1, parkingLot := 7, status := "active",
    vehicleType := none, slots := 1,
    startTime := some 0, endTime := none, totalAmount := none }

/-- A store with `orphanSess` and no lots at all. -/
def orphanSt : St := { lots := [], sessions := [orphanSess], notifs := [], nextId := 1 }

/-- A booked session whose lot (id 7) is not in the store. -/
def orphanBookedSess : Session :=
  { id := 5, user := 1, parkingLot := 7, status := "booked",
    vehicleType := none, slots := 2,
    startTime := some 0, endTime := none, totalAmount := none }

/-- A store with `orphanBookedSess` and no lots at all. -/
def orphanBookedSt : St :=
  { lots := [], sessions := [orphanBookedSess], notifs := [], nextId := 6 }

/-- User 7 walks in (guard entry, no booking) at lot 1 and then at lot 2:
both succeed, leaving the user with two simultaneously active sessions. -/
def twoActiveSt : St := (guardEntry 7 2 0 (guardEntry 7 1 0 demoSt).2).2

/-- A well-formed booking request: 2 slots at lot 1 for the window
[1000, 5000]. -/
def demoBookReq : BookReq :=
  { parkingLotId := some 1, slots := some (NumVal.int 2),
    startTime := some 1000, endTime := some 5000, vehicleType := none }

/-! ## Store lemmas -/

theorem getLot_updateLot (lid : Nat) (f : Lot → Lot) (hf : ∀ x, (f x).id = x.id)
    (lots : List Lot) :
    getLot lid (updateLot lid f lots) = (getLot lid lots).map f := by
  induction lots with
  | nil => rfl
  | cons l ls ih =>
    have hfl : ((f l).id == lid) = (l.id == lid) := by rw [hf l]
    by_cases h : (l.id == lid) = true
    · rw [updateLot, if_pos h]
      unfold getLot
      simp only [List.find?_cons, hfl, h]
      rfl
    · have h' : (l.id == lid) = false := by simpa using h
      rw [updateLot, if_neg h]
      unfold getLot
      simp only [List.find?_cons, h']
      exact ih

theorem getLot_updateLot_occ (lid : Nat) (d : Int) (lots : List Lot) :
    getLot lid (updateLot lid
        (fun x => { x with occupiedSpots := x.occupiedSpots + d }) lots)
      = (getLot lid lots).map (fun x => { x with occupiedSpots := x.occupiedSpots + d }) :=
  getLot_updateLot lid
    (fun x => { x with occupiedSpots := x.occupiedSpots + d }) (fun _ => rfl) lots

theorem getLot_updateLot_status (lid : Nat) (ns : String) (lots : List Lot) :
    getLot lid (updateLot lid (fun x => { x with status := ns }) lots)
      = (getLot lid lots).map (fun x => { x with status := ns }) :=
  getLot_updateLot lid (fun x => { x with status := ns }) (fun _ => rfl) lots

theorem syncLotStatus_of_missing {lid : Nat} {d : Int} {lots : List Lot}
    (h : getLot lid lots = none) : syncLotStatus lid d lots = (none, lots) := by
  unfold syncLotStatus
  rw [h]

theorem getLot_syncLotStatus {lid : Nat} {d : Int} {lots : List Lot} {l : Lot}
    (h : getLot lid lots = some l) :
    getLot lid (syncLotStatus lid d lots).2 =
      some { l with occupiedSpots := l.occupiedSpots + d,
                    status := resolveLotStatus (l.occupiedSpots + d) l.totalSpots } := by
  unfold syncLotStatus
  rw [h]
  dsimp only
  split
  · rw [getLot_updateLot_status, getLot_updateLot_occ, h]
    rfl
  · next hs =>
    have hs' : l.status = resolveLotStatus (l.occupiedSpots + d) l.totalSpots :=
      not_not.mp hs
    rw [getLot_updateLot_occ, h, Option.map_some', ← hs']

/-! ## Session-store lemmas -/

theorem mem_updateSession {sess : Session} {sid : Nat} (f : Session → Session)
    {xs : List Session} (hmem : sess ∈ xs) (hne : sess.id ≠ sid) :
    sess ∈ updateSession sid f xs := by
  induction xs with
  | nil => simp at hmem
  | cons x xs ih =>
    rcases List.mem_cons.mp hmem with rfl | h
    · rw [updateSession, if_neg (by simpa using hne)]
      exact List.mem_cons_self _ _
    · rw [updateSession]
      by_cases hx : (x.id == sid) = true
      · rw [if_pos hx]
        exact List.mem_cons_of_mem _ h
      · rw [if_neg hx]
        exact List.mem_cons_of_mem _ (ih h)

theorem mem_updateSession_cases {x : Session} {sid : Nat} {f : Session → Session}
    {xs : List Session} (hx : x ∈ updateSession sid f xs) :
    x ∈ xs ∨ ∃ y, y ∈ xs ∧ y.id = sid ∧ x = f y := by
  induction xs with
  | nil => simp [updateSession] at hx
  | cons a xs ih =>
    rw [updateSession] at hx
    by_cases ha : (a.id == sid) = true
    · rw [if_pos ha] at hx
      rcases List.mem_cons.mp hx with rfl | h
      · exact Or.inr ⟨a, List.mem_cons_self _ _, by simpa using ha, rfl⟩
      · exact Or.inl (List.mem_cons_of_mem _ h)
    · rw [if_neg ha] at hx
      rcases List.mem_cons.mp hx with rfl | h
      · exact Or.inl (List.mem_cons_self _ _)
      · rcases ih h with h' | ⟨y, hy, hyid, hxy⟩
        · exact Or.inl (List.mem_cons_of_mem _ h')
        · exact Or.inr ⟨y, List.mem_cons_of_mem _ hy, hyid, hxy⟩

theorem nodup_id_inj {xs : List Session}
    (hnodup : (xs.map (fun x => x.id)).Nodup)
    {a b : Session} (ha : a ∈ xs) (hb : b ∈ xs) (h : a.id = b.id) : a = b :=
  List.inj_on_of_nodup_map hnodup ha hb h

theorem self_mem_updateSession {sess : Session} {xs : List Session}
    (hnodup : (xs.map (fun x => x.id)).Nodup) (hmem : sess ∈ xs)
    (f : Session → Session) : f sess ∈ updateSession sess.id f xs := by
  induction xs with
  | nil => simp at hmem
  | cons x xs ih =>
    rw [List.map_cons, List.nodup_cons] at hnodup
    rcases List.mem_cons.mp hmem with rfl | h
    · rw [updateSession, if_pos (by simp)]
      exact List.mem_cons_self _ _
    · by_cases hx : (x.id == sess.id) = true
      · have hxid : x.id = sess.id := by simpa using hx
        have hin : sess.id ∈ xs.map (fun x => x.id) := List.mem_map_of_mem _ h
        exact absurd (by rw [hxid]; exact hin) hnodup.1
      · rw [updateSession, if_neg hx]
        exact List.mem_cons_of_mem _ (ih hnodup.2 h)

theorem not_mem_updateSession_self {sess : Session} {xs : List Session}
    {f : Session → Session}
    (hnodup : (xs.map (fun x => x.id)).Nodup) (hmem : sess ∈ xs)
    (hf : f sess ≠ sess) : sess ∉ updateSession sess.id f xs := by
  induction xs with
  | nil => simp at hmem
  | cons x xs ih =>
    rw [List.map_cons, List.nodup_cons] at hnodup
    intro habs
    rcases List.mem_cons.mp hmem with rfl | h
    · rw [updateSession, if_pos (by simp)] at habs
      rcases List.mem_cons.mp habs with h' | h'
      · exact hf h'.symm
      · exact hnodup.1 (List.mem_map_of_mem _ h')
    · by_cases hx : (x.id == sess.id) = true
      · have hxid : x.id = sess.id := by simpa using hx
        have hin : sess.id ∈ xs.map (fun x => x.id) := List.mem_map_of_mem _ h
        exact hnodup.1 (by rw [hxid]; exact hin)
      · rw [updateSession, if_neg hx] at habs
        rcases List.mem_cons.mp habs with rfl | h'
        · exact hx (by simp)
        · exact ih hnodup.2 h h'

theorem find?_decomp {α : Type} {p : α → Bool} {l : List α} {a : α}
    (h : l.find? p = some a) :
    ∃ l1 l2, l = l1 ++ a :: l2 ∧ ∀ x ∈ l1, ¬ p x := by
  induction l with
  | nil => simp at h
  | cons x xs ih =>
    by_cases hx : p x
    · rw [List.find?_cons_of_pos _ hx] at h
      cases h
      exact ⟨[], xs, rfl, by simp⟩
    · rw [List.find?_cons_of_neg _ hx] at h
      obtain ⟨l1, l2, rfl, hl1⟩ := ih h
      refine ⟨x :: l1, l2, rfl, ?_⟩
      intro y hy
      rcases List.mem_cons.mp hy with rfl | hy
      · exact hx
      · exact hl1 y hy

theorem findNewestBooked_decomp {u lid : Nat} {xs : List Session} {t : Session}
    (h : findNewestBooked u lid xs = some t) :
    isBookedAt u lid t = true ∧
    ∃ l1 l2, xs = l1 ++ t :: l2 ∧ ∀ x ∈ l2, ¬ isBookedAt u lid x := by
  have hp := List.find?_some h
  obtain ⟨r1, r2, hrev, hr1⟩ := find?_decomp h
  refine ⟨hp, r2.reverse, r1.reverse, ?_, ?_⟩
  · have h2 := congrArg List.reverse hrev
    simpa [List.reverse_append] using h2
  · intro x hx
    exact hr1 x (by simpa using hx)

/-! ## Billing -/

theorem ceilHours_eq_ceil (x : Int) : ceilHours x = ⌈(x : ℚ) / 3600000⌉ := by
  have hcast : (x : ℚ) / 3600000 = -(((-x : Int) : ℚ) / ((3600000 : Nat) : ℚ)) := by
    push_cast
    ring
  rw [ceilHours, hcast, Int.ceil_neg, Rat.floor_intCast_div_natCast]
  norm_num

/-- C2. For every session settlement (`guardExit` or `completeSession`)
with session start time at most the settlement time, the computed charge
equals `max(1, ceil(elapsedMs / 3600000)) * pricePerHour`, hence is at
least `pricePerHour` (minimum one billed hour); and the session record
stored by either settlement operation carries exactly
`computeCharge startTime now pricePerHour` of the session's lot. -/
theorem computeCharge_spec (startT endT price : Int)
    (h1 : startT ≤ endT) (h2 : 0 ≤ price) :
    (computeCharge startT endT price
        = max 1 ⌈((endT - startT : Int) : ℚ) / 3600000⌉ * price
      ∧ price ≤ computeCharge startT endT price) ∧
    (∀ (s : St) (u lid : Nat) (sess : Session) (lot : Lot),
      (s.sessions.map (fun x => x.id)).Nodup →
      s.sessions.find? (isActiveAt u lid) = some sess →
      getLot sess.parkingLot s.lots = some lot →
      sess.startTime = some startT →
      { sess with endTime := some endT,
                  totalAmount := some (computeCharge startT endT lot.pricePerHour),
                  status := "completed" } ∈ (guardExit u lid endT s).2.sessions) ∧
    (∀ (s : St) (u : Nat) (sess : Session) (lot : Lot),
      (s.sessions.map (fun x => x.id)).Nodup →
      s.sessions.find? (isActiveFor u) = some sess →
      getLot sess.parkingLot s.lots = some lot →
      sess.startTime = some startT →
      { sess with endTime := some endT,
                  totalAmount := some (computeCharge startT endT lot.pricePerHour),
                  status := "completed" } ∈ (completeSession u endT s).2.sessions) := by
  refine ⟨⟨?_, ?_⟩, ?_, ?_⟩
  · rw [computeCharge, durationHours, ceilHours_eq_ceil]
  · calc price = 1 * price := (one_mul price).symm
      _ ≤ durationHours startT endT * price :=
          mul_le_mul_of_nonneg_right (le_max_left _ _) h2
  · intro s u lid sess lot hnodup hfind hlot hst
    unfold guardExit
    rw [hfind]
    dsimp only
    rw [hlot]
    dsimp only
    have hm := self_mem_updateSession hnodup (List.mem_of_find?_eq_some hfind)
      (fun x => { x with endTime := some endT,
                         totalAmount := Option.map
                           (fun st => computeCharge st endT lot.pricePerHour)
                           sess.startTime,
                         status := "completed" })
    simp only [hst, Option.map_some'] at hm ⊢
    exact hm
  · intro s u sess lot hnodup hfind hlot hst
    unfold completeSession
    rw [hfind]
    dsimp only
    rw [hlot]
    dsimp only
    have hm := self_mem_updateSession hnodup (List.mem_of_find?_eq_some hfind)
      (fun x => { x with endTime := some endT,
                         totalAmount := Option.map
                           (fun st => computeCharge st endT lot.pricePerHour)
                           sess.startTime,
                         status := "completed" })
    simp only [hst, Option.map_some'] at hm ⊢
    exact hm

/-- Witness for C2: a 45-minute session at rate 100/hr bills exactly 100
(the one-hour minimum), and `completeSession` stores that amount. -/
theorem computeCharge_spec_witness :
    computeCharge 0 2700000 100 = 100 ∧
    100 ≤ computeCharge 0 2700000 100 ∧
    { activeSess with endTime := some 2700000, totalAmount := some 100,
                      status := "completed" }
      ∈ (completeSession 1 2700000 activeSt).2.sessions := by
  have h := computeCharge_spec 0 2700000 100 (by norm_num) (by norm_num)
  have hval : computeCharge 0 2700000 100 = 100 := by decide
  refine ⟨hval, hval ▸ h.1.2, ?_⟩
  have h3 := h.2.2 activeSt 1 activeSess { lotA with occupiedSpots := 1 }
    (by decide) (by decide) (by decide) rfl
  simpa [hval] using h3

/-! ## Lot status -/

/-- C8. `resolveLotStatus occupied total` is "full" iff
`occupied ≥ total` and "available" otherwise; and after every occupancy
change (`syncLotStatus`), the stored status of the synced lot equals
`resolveLotStatus` of its stored occupancy and capacity. -/
theorem resolveLotStatus_spec :
    (∀ o t : Int, (resolveLotStatus o t = "full" ↔ o ≥ t) ∧
        (resolveLotStatus o t = "available" ↔ ¬ o ≥ t)) ∧
    (∀ (lid : Nat) (d : Int) (lots : List Lot) (l : Lot),
      getLot lid lots = some l →
      ∃ l', getLot lid (syncLotStatus lid d lots).2 = some l' ∧
        l'.status = resolveLotStatus l'.occupiedSpots l'.totalSpots ∧
        l'.occupiedSpots = l.occupiedSpots + d ∧
        l'.totalSpots = l.totalSpots) := by
  constructor
  · intro o t
    by_cases h : o ≥ t <;> simp [resolveLotStatus, h]
  · intro lid d lots l h
    exact ⟨_, getLot_syncLotStatus h, rfl, rfl, rfl⟩

/-- Witness for C8: reserving 2 spots at the empty two-spot lot `lotA`
leaves its stored status equal to `resolveLotStatus 2 2` = "full". -/
theorem resolveLotStatus_spec_witness :
    (getLot 1 (syncLotStatus 1 2 demoSt.lots).2).map
      (fun l => (l.status, l.occupiedSpots, l.totalSpots))
      = some (resolveLotStatus 2 2, 2, 2) := by
  obtain ⟨l', h1, h2, h3, h4⟩ :=
    resolveLotStatus_spec.2 1 2 demoSt.lots lotA (by decide)
  rw [h1, Option.map_some', h2, h3, h4]
  decide

/-! ## Booking -/

/-- C1. Given a request with `parkingLotId`, `startTime`, `endTime`
present and an integer slot count `k ≥ 1`, `bookParking` succeeds (201)
iff the lot exists and has `k` free spots; on success it appends a
session with status "booked" and `slots = k` and adds `k` to the lot's
`occupiedSpots`; a missing lot yields 404 and an insufficient capacity
yields 400, both leaving the state untouched. -/
theorem bookParking_spec (u : Nat) (req : BookReq) (s : St) (lid : Nat)
    (st et : Int) (k : Int)
    (hlid : req.parkingLotId = some lid) (hst : req.startTime = some st)
    (het : req.endTime = some et)
    (hk : req.slots.getD (NumVal.int 1) = NumVal.int k) (hk1 : 1 ≤ k) :
    ((bookParking u req s).1.code = 201 ↔
      ∃ lot, getLot lid s.lots = some lot ∧
        k ≤ lot.totalSpots - lot.occupiedSpots) ∧
    (getLot lid s.lots = none →
      (bookParking u req s).1.code = 404 ∧ (bookParking u req s).2 = s) ∧
    (∀ lot, getLot lid s.lots = some lot →
      lot.totalSpots - lot.occupiedSpots < k →
      (bookParking u req s).1.code = 400 ∧ (bookParking u req s).2 = s) ∧
    (∀ lot, getLot lid s.lots = some lot →
      k ≤ lot.totalSpots - lot.occupiedSpots →
      (bookParking u req s).2.sessions = s.sessions ++
        [{ id := s.nextId, user := u, parkingLot := lid, status := "booked",
           vehicleType := some (if lot.type == "bike" then "bike" else "car"),
           slots := k, startTime := some st, endTime := some et,
           totalAmount := none }] ∧
      ∃ lot', getLot lid (bookParking u req s).2.lots = some lot' ∧
        lot'.occupiedSpots = lot.occupiedSpots + k) := by
  unfold bookParking
  rw [hlid, hst, het, hk]
  dsimp only
  rw [if_neg (not_lt.mpr hk1)]
  cases hlot : getLot lid s.lots with
  | none =>
    dsimp only
    refine ⟨⟨fun hcode => by simp at hcode, ?_⟩,
            fun _ => ⟨rfl, rfl⟩, ?_, ?_⟩
    · rintro ⟨lot, hl, -⟩
      cases hl
    · intro lot hl
      cases hl
    · intro lot hl
      cases hl
  | some lot0 =>
    dsimp only
    by_cases hcap : lot0.totalSpots - lot0.occupiedSpots < k
    · rw [if_pos hcap]
      refine ⟨⟨fun hcode => by simp at hcode, ?_⟩, ?_, ?_, ?_⟩
      · rintro ⟨lot, hl, hle⟩
        cases hl
        exact absurd hcap (not_lt.mpr hle)
      · intro hnone
        cases hnone
      · intro lot hl hlt
        exact ⟨rfl, rfl⟩
      · intro lot hl hle
        cases hl
        exact absurd hcap (not_lt.mpr hle)
    · rw [if_neg hcap]
      dsimp only
      refine ⟨⟨fun _ => ⟨lot0, rfl, not_lt.mp hcap⟩, fun _ => rfl⟩, ?_, ?_, ?_⟩
      · intro hnone
        cases hnone
      · intro lot hl hlt
        cases hl
        exact absurd hlt hcap
      · intro lot hl hle
        cases hl
        exact ⟨rfl, _, getLot_syncLotStatus hlot, rfl⟩

/-- Witness for C1: booking 2 slots at the empty two-spot lot succeeds
with 201 and raises the lot's occupancy to 2. -/
theorem bookParking_spec_witness :
    (bookParking 9 demoBookReq demoSt).1.code = 201 ∧
    (getLot 1 (bookParking 9 demoBookReq demoSt).2.lots).map
      (fun l => l.occupiedSpots) = some 2 := by
  have h := bookParking_spec 9 demoBookReq demoSt 1 1000 5000 2
    rfl rfl rfl rfl (by norm_num)
  refine ⟨h.1.mpr ⟨lotA, by decide, by decide⟩, ?_⟩
  obtain ⟨-, lot', hl', hocc⟩ := h.2.2.2 lotA (by decide) (by decide)
  rw [hl', Option.map_some', hocc]
  decide

/-- C7. `bookParking` rejects invalid input before any mutation: a
missing `parkingLotId` / `startTime` / `endTime` yields 400, and a slot
count that is not an integer ≥ 1 yields 400 with message
"slots must be a positive whole number"; in both cases the state is
untouched. -/
theorem bookParking_validation (u : Nat) (req : BookReq) (s : St) :
    ((req.parkingLotId = none ∨ req.startTime = none ∨ req.endTime = none) →
      (bookParking u req s).1.code = 400 ∧ (bookParking u req s).2 = s) ∧
    (∀ lid st et, req.parkingLotId = some lid → req.startTime = some st →
      req.endTime = some et → slotsInvalid req.slots = true →
      (bookParking u req s).1.code = 400 ∧
      (bookParking u req s).1.message
        = some "slots must be a positive whole number" ∧
      (bookParking u req s).2 = s) := by
  constructor
  · intro hmiss
    unfold bookParking
    rcases hA : req.parkingLotId with _ | lid <;>
      rcases hB : req.startTime with _ | st <;>
        rcases hC : req.endTime with _ | et <;>
          simp_all
  · intro lid st et hA hB hC hbad
    unfold bookParking
    rw [hA, hB, hC]
    dsimp only
    cases hS : req.slots.getD (NumVal.int 1) with
    | int k =>
      simp only [slotsInvalid, hS, decide_eq_true_eq] at hbad
      dsimp only
      rw [if_pos hbad]
      exact ⟨rfl, rfl, rfl⟩
    | nonInt =>
      exact ⟨rfl, rfl, rfl⟩

/-- Witness for C7: `slots = 0` yields 400 with the exact message and no
state change; a missing `parkingLotId` yields 400. -/
theorem bookParking_validation_witness :
    (bookParking 9 { demoBookReq with slots := some (NumVal.int 0) } demoSt).1.code
      = 400 ∧
    (bookParking 9 { demoBookReq with slots := some (NumVal.int 0) } demoSt).1.message
      = some "slots must be a positive whole number" ∧
    (bookParking 9 { demoBookReq with slots := some (NumVal.int 0) } demoSt).2
      = demoSt ∧
    (bookParking 9 { demoBookReq with parkingLotId := none } demoSt).1.code = 400 := by
  have h := (bookParking_validation 9
    { demoBookReq with slots := some (NumVal.int 0) } demoSt).2
    1 1000 5000 rfl rfl rfl (by decide)
  have h2 := (bookParking_validation 9
    { demoBookReq with parkingLotId := none } demoSt).1 (Or.inl rfl)
  exact ⟨h.1, h.2.1, h.2.2, h2.1⟩

/-- C10. `bookParking` ignores any `vehicleType` supplied in the
request, and the created session's vehicle type is "bike" iff the lot's
type is "bike", and "car" in every other case. -/
theorem bookParking_vehicleType_spec (u : Nat) (req : BookReq) (s : St)
    (v : Option String) (lid : Nat) (st et : Int) (k : Int)
    (hlid : req.parkingLotId = some lid) (hst : req.startTime = some st)
    (het : req.endTime = some et)
    (hk : req.slots.getD (NumVal.int 1) = NumVal.int k) (hk1 : 1 ≤ k) :
    (bookParking u { req with vehicleType := v } s = bookParking u req s) ∧
    (∀ lot, getLot lid s.lots = some lot →
      k ≤ lot.totalSpots - lot.occupiedSpots →
      ∃ sess, (bookParking u req s).2.sessions = s.sessions ++ [sess] ∧
        (sess.vehicleType = some "bike" ↔ lot.type = "bike") ∧
        (lot.type ≠ "bike" → sess.vehicleType = some "car")) := by
  constructor
  · cases req
    rfl
  · intro lot hlot hle
    unfold bookParking
    rw [hlid, hst, het, hk]
    dsimp only
    rw [if_neg (not_lt.mpr hk1), hlot]
    dsimp only
    rw [if_neg (not_lt.mpr hle)]
    refine ⟨_, rfl, ?_, ?_⟩
    · by_cases hb : lot.type = "bike" <;> simp [hb]
    · intro hb
      simp [hb]

/-- Witness for C10: with a "bike"-typed vehicle supplied in the request
at the car lot `lotA`, the request field is ignored and the created
session's vehicle type is "car". -/
theorem bookParking_vehicleType_witness :
    bookParking 9 { demoBookReq with vehicleType := some "bike" } demoSt
      = bookParking 9 demoBookReq demoSt ∧
    (bookParking 9 demoBookReq demoSt).2.sessions.map (fun x => x.vehicleType)
      = [some "car"] := by
  have h := bookParking_vehicleType_spec 9 demoBookReq demoSt (some "bike")
    1 1000 5000 2 rfl rfl rfl rfl (by norm_num)
  obtain ⟨sess, hseq, -, hcar⟩ := h.2 lotA (by decide) (by decide)
  refine ⟨h.1, ?_⟩
  rw [hseq]
  simp [demoSt, hcar (by decide)]

/-! ## startSession and guardEntry -/

/-- C5. `startSession` responds 400 and mutates nothing when the
caller already has an active session; otherwise it responds 201, appends
a session with status "active", `slots = 1` and `startTime = now`, and
increments the chosen lot's occupancy by 1. -/
theorem startSession_spec (u lid : Nat) (v : Option String) (now : Int) (s : St) :
    ((∃ x ∈ s.sessions, isActiveFor u x) →
      (startSession u lid v now s).1.code = 400 ∧
      (startSession u lid v now s).2 = s) ∧
    (s.sessions.find? (isActiveFor u) = none →
      (startSession u lid v now s).1.code = 201 ∧
      (startSession u lid v now s).2.sessions
        = s.sessions ++ [defaultSession s.nextId u lid v now] ∧
      (defaultSession s.nextId u lid v now).status = "active" ∧
      (defaultSession s.nextId u lid v now).slots = 1 ∧
      (defaultSession s.nextId u lid v now).startTime = some now ∧
      (∀ lot, getLot lid s.lots = some lot →
        ∃ lot', getLot lid (startSession u lid v now s).2.lots = some lot' ∧
          lot'.occupiedSpots = lot.occupiedSpots + 1)) := by
  constructor
  · intro hex
    have hsome : (s.sessions.find? (isActiveFor u)).isSome :=
      List.find?_isSome.mpr (by simpa using hex)
    unfold startSession
    cases hfind : s.sessions.find? (isActiveFor u) with
    | none => rw [hfind] at hsome; simp at hsome
    | some t => exact ⟨rfl, rfl⟩
  · intro hnone
    unfold startSession
    rw [hnone]
    dsimp only
    refine ⟨rfl, rfl, rfl, rfl, rfl, ?_⟩
    intro lot hlot
    exact ⟨_, getLot_syncLotStatus hlot, rfl⟩

/-- Witness for C5: a second session for user 1 (already active) is
rejected without mutation; a fresh user gets a 201 and the lot occupancy
rises by 1. -/
theorem startSession_spec_witness :
    (startSession 1 1 none 50 activeSt).1.code = 400 ∧
    (startSession 1 1 none 50 activeSt).2 = activeSt ∧
    (startSession 3 1 none 50 demoSt).1.code = 201 ∧
    (getLot 1 (startSession 3 1 none 50 demoSt).2.lots).map
      (fun l => l.occupiedSpots) = some 1 := by
  have h1 := (startSession_spec 1 1 none 50 activeSt).1
    ⟨activeSess, by decide, by decide⟩
  have h2 := (startSession_spec 3 1 none 50 demoSt).2 (by decide)
  obtain ⟨lot', hl', hocc⟩ := h2.2.2.2.2.2 lotA (by decide)
  refine ⟨h1.1, h1.2, h2.1, ?_⟩
  rw [hl', Option.map_some', hocc]
  decide

/-- C3. `guardEntry` always responds 200.  If a booked session exists
for the (user, lot) pair it activates the most recently created one (the
store splits as `l1 ++ t :: l2` with nothing booked for the pair after
`t`), sets its start time to now and leaves every lot unchanged; if none
exists it appends a walk-in session directly in the active state and
increments the lot's occupancy by exactly 1. -/
theorem guardEntry_spec (u lid : Nat) (now : Int) (s : St) :
    ((guardEntry u lid now s).1.code = 200) ∧
    (∀ t, findNewestBooked u lid s.sessions = some t →
      (guardEntry u lid now s).2.lots = s.lots ∧
      (guardEntry u lid now s).2.sessions
        = updateSession t.id
            (fun x => { x with status := "active", startTime := some now })
            s.sessions ∧
      isBookedAt u lid t = true ∧
      (∃ l1 l2, s.sessions = l1 ++ t :: l2 ∧
        ∀ x ∈ l2, ¬ isBookedAt u lid x) ∧
      ((s.sessions.map (fun x => x.id)).Nodup →
        { t with status := "active", startTime := some now }
          ∈ (guardEntry u lid now s).2.sessions)) ∧
    (findNewestBooked u lid s.sessions = none →
      (guardEntry u lid now s).2.sessions = s.sessions ++
        [{ id := s.nextId, user := u, parkingLot := lid, status := "active",
           vehicleType := none, slots := 1, startTime := some now,
           endTime := none, totalAmount := none }] ∧
      ∀ lot, getLot lid s.lots = some lot →
        ∃ lot', getLot lid (guardEntry u lid now s).2.lots = some lot' ∧
          lot'.occupiedSpots = lot.occupiedSpots + 1) := by
  refine ⟨?_, ?_, ?_⟩
  · unfold guardEntry
    cases hfind : findNewestBooked u lid s.sessions <;> rfl
  · intro t hfind
    unfold guardEntry
    rw [hfind]
    dsimp only
    obtain ⟨hbooked, l1, l2, hdecomp, hl2⟩ := findNewestBooked_decomp hfind
    refine ⟨rfl, rfl, hbooked, ⟨l1, l2, hdecomp, hl2⟩, ?_⟩
    intro hnodup
    have hm : t ∈ s.sessions :=
      List.mem_reverse.mp (@List.mem_of_find?_eq_some _ _ _ _ hfind)
    exact self_mem_updateSession hnodup hm
      (fun x => { x with status := "active", startTime := some now })
  · intro hfind
    unfold guardEntry
    rw [hfind]
    dsimp only
    refine ⟨rfl, ?_⟩
    intro lot hlot
    exact ⟨_, getLot_syncLotStatus hlot, rfl⟩

/-- Witness for C3: scanning user 9 at lot 1 activates the booked session
without touching the lots; scanning an unknown user still succeeds. -/
theorem guardEntry_spec_witness :
    (guardEntry 9 1 77 bookedSt).1.code = 200 ∧
    (guardEntry 9 1 77 bookedSt).2.lots = bookedSt.lots ∧
    { bookedSess with status := "active", startTime := some 77 }
      ∈ (guardEntry 9 1 77 bookedSt).2.sessions ∧
    (guardEntry 4 2 77 demoSt).1.code = 200 := by
  have h := (guardEntry_spec 9 1 77 bookedSt).2.1 bookedSess (by decide)
  exact ⟨(guardEntry_spec 9 1 77 bookedSt).1, h.1, h.2.2.2.2 (by decide),
    (guardEntry_spec 4 2 77 demoSt).1⟩

/-! ## Terminal states -/

theorem mem_update_of_terminal {sess t : Session} {xs : List Session}
    (hnodup : (xs.map (fun x => x.id)).Nodup)
    (hmem : sess ∈ xs) (htmem : t ∈ xs)
    (hts : t.status = "active" ∨ t.status = "booked")
    (hterm : sess.status = "completed" ∨ sess.status = "canceled")
    (f : Session → Session) : sess ∈ updateSession t.id f xs := by
  have hne : sess.id ≠ t.id := by
    intro h
    have heq := nodup_id_inj hnodup hmem htmem h
    rw [heq] at hterm
    rcases hts with h1 | h1 <;> rcases hterm with h2 | h2 <;>
      rw [h1] at h2 <;> simp at h2
  exact mem_updateSession f hmem hne

/-- C4. Terminal states are absorbing: a session whose status is
"completed" or "canceled" survives every operation unchanged (each
mutating lookup selects only "booked" or "active" sessions), assuming
distinct document ids. -/
theorem terminal_absorbing (s : St) (sess : Session)
    (hmem : sess ∈ s.sessions)
    (hterm : sess.status = "completed" ∨ sess.status = "canceled")
    (hnodup : (s.sessions.map (fun x => x.id)).Nodup) :
    (∀ u lid v now, sess ∈ (startSession u lid v now s).2.sessions) ∧
    (∀ u req, sess ∈ (bookParking u req s).2.sessions) ∧
    (∀ u lid now, sess ∈ (guardEntry u lid now s).2.sessions) ∧
    (∀ u lid now, sess ∈ (guardExit u lid now s).2.sessions) ∧
    (∀ u bid now, sess ∈ (cancelBooking u bid now s).2.sessions) ∧
    (∀ u now, sess ∈ (completeSession u now s).2.sessions) := by
  refine ⟨?_, ?_, ?_, ?_, ?_, ?_⟩
  · intro u lid v now
    unfold startSession
    cases hfind : s.sessions.find? (isActiveFor u) with
    | some t => exact hmem
    | none => exact List.mem_append_left _ hmem
  · intro u req
    unfold bookParking
    repeat' split
    all_goals first
      | exact hmem
      | exact List.mem_append_left _ hmem
  · intro u lid now
    unfold guardEntry
    cases hfind : findNewestBooked u lid s.sessions with
    | none => exact List.mem_append_left _ hmem
    | some t =>
      dsimp only
      have hts : t.status = "booked" := by
        have h := List.find?_some hfind
        simp [isBookedAt] at h
        exact h.2
      have htmem : t ∈ s.sessions :=
        List.mem_reverse.mp (@List.mem_of_find?_eq_some _ _ _ _ hfind)
      exact mem_update_of_terminal hnodup hmem htmem (Or.inr hts) hterm _
  · intro u lid now
    unfold guardExit
    cases hfind : s.sessions.find? (isActiveAt u lid) with
    | none => exact hmem
    | some t =>
      dsimp only
      cases hlot : getLot t.parkingLot s.lots with
      | none => exact hmem
      | some lot =>
        dsimp only
        have hts : t.status = "active" := by
          have h := List.find?_some hfind
          simp [isActiveAt] at h
          exact h.2
        have htmem := List.mem_of_find?_eq_some hfind
        exact mem_update_of_terminal hnodup hmem htmem (Or.inl hts) hterm _
  · intro u bid now
    unfold cancelBooking
    cases hfind : s.sessions.find?
        (fun x => x.id == bid && x.user == u && x.status == "booked") with
    | none => exact hmem
    | some t =>
      dsimp only
      have hts : t.status = "booked" := by
        have h := List.find?_some hfind
        simp at h
        exact h.2
      have htmem := List.mem_of_find?_eq_some hfind
      exact mem_update_of_terminal hnodup hmem htmem (Or.inr hts) hterm _
  · intro u now
    unfold completeSession
    cases hfind : s.sessions.find? (isActiveFor u) with
    | none => exact hmem
    | some t =>
      dsimp only
      cases hlot : getLot t.parkingLot s.lots with
      | none => exact hmem
      | some lot =>
        dsimp only
        have hts : t.status = "active" := by
          have h := List.find?_some hfind
          simp [isActiveFor] at h
          exact h.2
        have htmem := List.mem_of_find?_eq_some hfind
        exact mem_update_of_terminal hnodup hmem htmem (Or.inl hts) hterm _

/-- Witness for C4: the completed session `termSess` survives a guard
exit, a cancellation attempt and a completion attempt untouched. -/
theorem terminal_absorbing_witness :
    termSess ∈ (guardExit 1 1 9 termSt).2.sessions ∧
    termSess ∈ (cancelBooking 1 0 9 termSt).2.sessions ∧
    termSess ∈ (completeSession 1 9 termSt).2.sessions ∧
    termSess ∈ (guardEntry 1 1 9 termSt).2.sessions := by
  have h := terminal_absorbing termSt termSess (by decide) (Or.inl rfl) (by decide)
  exact ⟨h.2.2.2.1 1 1 9, h.2.2.2.2.1 1 0 9, h.2.2.2.2.2 1 9, h.2.2.1 1 1 9⟩

/-! ## Settlement on missing sessions, idempotence -/

/-- C6 (amended). `guardExit` and `completeSession` respond 404 and
leave the state untouched when the target user has no active session;
and when the user holds at most one active session, a second consecutive
`completeSession` call responds 404 and changes nothing — in particular
the settled amount is not re-billed and occupancy is not released twice.
(Without the at-most-one hypothesis the second call can settle a second
active session created by guard walk-ins.) -/
theorem settle_404_spec (u lid : Nat) (now now2 : Int) (s : St)
    (hone : ∀ x ∈ s.sessions, ∀ y ∈ s.sessions,
      isActiveFor u x → isActiveFor u y → x = y)
    (hnodup : (s.sessions.map (fun x => x.id)).Nodup) :
    (s.sessions.find? (isActiveAt u lid) = none →
      (guardExit u lid now s).1.code = 404 ∧ (guardExit u lid now s).2 = s) ∧
    (s.sessions.find? (isActiveFor u) = none →
      (completeSession u now s).1.code = 404 ∧ (completeSession u now s).2 = s) ∧
    ((completeSession u now s).1.code = 200 →
      (completeSession u now2 (completeSession u now s).2).1.code = 404 ∧
      (completeSession u now2 (completeSession u now s).2).2
        = (completeSession u now s).2) := by
  refine ⟨?_, ?_, ?_⟩
  · intro hnone
    unfold guardExit
    rw [hnone]
    exact ⟨rfl, rfl⟩
  · intro hnone
    unfold completeSession
    rw [hnone]
    exact ⟨rfl, rfl⟩
  · intro h200
    cases hfind : s.sessions.find? (isActiveFor u) with
    | none =>
      exfalso
      unfold completeSession at h200
      rw [hfind] at h200
      simp at h200
    | some t =>
      cases hlot : getLot t.parkingLot s.lots with
      | none =>
        exfalso
        unfold completeSession at h200
        rw [hfind] at h200
        dsimp only at h200
        rw [hlot] at h200
        simp at h200
      | some lot =>
        have htmem := List.mem_of_find?_eq_some hfind
        have htact := List.find?_some hfind
        have hnone : (updateSession t.id
            (fun x => { x with
              endTime := some now,
              totalAmount := Option.map
                (fun st => computeCharge st now lot.pricePerHour) t.startTime,
              status := "completed" }) s.sessions).find? (isActiveFor u)
            = none := by
          apply List.find?_eq_none.mpr
          intro x hx hax
          rcases mem_updateSession_cases hx with hxs | ⟨y, hy, hyid, rfl⟩
          · have hxt : x = t := hone x hxs t htmem hax htact
            rw [hxt] at hx
            refine not_mem_updateSession_self hnodup htmem ?_ hx
            intro heq
            have hstat := congrArg Session.status heq
            have htact' : t.status = "active" := by
              simp [isActiveFor] at htact
              exact htact.2
            rw [htact'] at hstat
            simp at hstat
          · have hyt : y = t := nodup_id_inj hnodup hy htmem hyid
            subst hyt
            simp [isActiveFor] at hax
        have hs2 : (completeSession u now s).2.sessions
            = updateSession t.id
              (fun x => { x with
                endTime := some now,
                totalAmount := Option.map
                  (fun st => computeCharge st now lot.pricePerHour) t.startTime,
                status := "completed" }) s.sessions := by
          unfold completeSession
          rw [hfind]
          dsimp only
          rw [hlot]
        obtain ⟨s2, hgen⟩ : ∃ s2, (completeSession u now s).2 = s2 := ⟨_, rfl⟩
        rw [hgen] at hs2 ⊢
        unfold completeSession
        rw [hs2, hnone]
        exact ⟨rfl, rfl⟩

/-- Witness for C6: with a single active session, a guard exit at the
wrong lot gives 404 without mutation, and the second of two consecutive
`completeSession` calls gives 404 and changes nothing. -/
theorem settle_404_witness :
    ((guardExit 1 2 5 activeSt).1.code = 404 ∧
      (guardExit 1 2 5 activeSt).2 = activeSt) ∧
    (completeSession 1 7200000 (completeSession 1 3600000 activeSt).2).1.code
      = 404 ∧
    (completeSession 1 7200000 (completeSession 1 3600000 activeSt).2).2
      = (completeSession 1 3600000 activeSt).2 := by
  have h := settle_404_spec 1 2 3600000 7200000 activeSt (by decide) (by decide)
  have h3 := h.2.2 (by decide)
  exact ⟨h.1 (by decide), h3.1, h3.2⟩

/-- Counterexample to C6 as stated: guard walk-ins give user 7 two active
sessions at once, and then two consecutive `completeSession` calls both
respond 200 — the second does not 404. -/
theorem completeSession_twice_cx :
    (guardEntry 7 1 0 demoSt).1.code = 200 ∧
    (guardEntry 7 2 0 (guardEntry 7 1 0 demoSt).2).1.code = 200 ∧
    (completeSession 7 3600000 twoActiveSt).1.code = 200 ∧
    (completeSession 7 7200000 (completeSession 7 3600000 twoActiveSt).2).1.code
      = 200 := by
  decide

/-! ## Missing lot at sync time -/

/-- C9 (amended). `syncLotStatus` on a missing lot is a no-op
returning the not-found signal, and `startSession`, `guardEntry`
(walk-in) and `cancelBooking` still succeed when the lot is gone; but
`guardExit` and `completeSession` dereference the populated lot for
pricing before the sync, so a missing lot there surfaces as a 500 error
with no state change rather than a successful no-op.  (`bookParking`
looks the lot up itself and 404s first, so its sync always sees an
existing lot.) -/
theorem syncMissingLot_spec (u lid : Nat) (v : Option String) (now : Int)
    (d : Int) (lots' : List Lot) (s : St) :
    (getLot lid lots' = none → syncLotStatus lid d lots' = (none, lots')) ∧
    (s.sessions.find? (isActiveFor u) = none → getLot lid s.lots = none →
      (startSession u lid v now s).1.code = 201 ∧
      (startSession u lid v now s).2.lots = s.lots) ∧
    (findNewestBooked u lid s.sessions = none → getLot lid s.lots = none →
      (guardEntry u lid now s).1.code = 200 ∧
      (guardEntry u lid now s).2.lots = s.lots) ∧
    (∀ bid sess, s.sessions.find?
        (fun x => x.id == bid && x.user == u && x.status == "booked")
        = some sess →
      getLot sess.parkingLot s.lots = none →
      (cancelBooking u bid now s).1.code = 200 ∧
      (cancelBooking u bid now s).2.lots = s.lots) ∧
    (∀ sess, s.sessions.find? (isActiveAt u lid) = some sess →
      getLot sess.parkingLot s.lots = none →
      (guardExit u lid now s).1.code = 500 ∧ (guardExit u lid now s).2 = s) ∧
    (∀ sess, s.sessions.find? (isActiveFor u) = some sess →
      getLot sess.parkingLot s.lots = none →
      (completeSession u now s).1.code = 500 ∧
      (completeSession u now s).2 = s) := by
  refine ⟨?_, ?_, ?_, ?_, ?_, ?_⟩
  · intro h
    exact syncLotStatus_of_missing h
  · intro hfind hlot
    unfold startSession
    rw [hfind]
    dsimp only
    rw [syncLotStatus_of_missing hlot]
    exact ⟨rfl, rfl⟩
  · intro hfind hlot
    unfold guardEntry
    rw [hfind]
    dsimp only
    rw [syncLotStatus_of_missing hlot]
    exact ⟨rfl, rfl⟩
  · intro bid sess hfind hlot
    unfold cancelBooking
    rw [hfind]
    dsimp only
    rw [syncLotStatus_of_missing hlot]
    exact ⟨rfl, rfl⟩
  · intro sess hfind hlot
    unfold guardExit
    rw [hfind]
    dsimp only
    rw [hlot]
    exact ⟨rfl, rfl⟩
  · intro sess hfind hlot
    unfold completeSession
    rw [hfind]
    dsimp only
    rw [hlot]
    exact ⟨rfl, rfl⟩

/-- Witness for C9 (amended), on concrete orphaned stores: the sync
signals not-found, `startSession` and `cancelBooking` still succeed, and
`guardExit` / `completeSession` surface 500 with no state change. -/
theorem syncMissingLot_witness :
    syncLotStatus 7 1 ([] : List Lot) = (none, ([] : List Lot)) ∧
    (startSession 3 99 none 0 demoSt).1.code = 201 ∧
    (cancelBooking 1 5 100 orphanBookedSt).1.code = 200 ∧
    (cancelBooking 1 5 100 orphanBookedSt).2.lots = orphanBookedSt.lots ∧
    (guardExit 1 7 100 orphanSt).1.code = 500 ∧
    (guardExit 1 7 100 orphanSt).2 = orphanSt := by
  have h1 := (syncMissingLot_spec 3 99 none 0 1 ([] : List Lot) demoSt).1 (by decide)
  have h2 := (syncMissingLot_spec 3 99 none 0 1 ([] : List Lot) demoSt).2.1
    (by decide) (by decide)
  have h3 := (syncMissingLot_spec 1 7 none 100 1 ([] : List Lot)
    orphanBookedSt).2.2.2.1 5 orphanBookedSess (by decide) (by decide)
  have h4 := (syncMissingLot_spec 1 7 none 100 1 ([] : List Lot)
    orphanSt).2.2.2.2.1 orphanSess (by decide) (by decide)
  exact ⟨h1, h2.1, h3.1, h3.2, h4.1, h4.2⟩

/-- Counterexample to C9 as stated: with an active session whose lot no
longer exists, `guardExit` and `completeSession` do not complete
successfully — both surface a 500 error. -/
theorem missingLot_cx :
    (guardExit 1 7 100 orphanSt).1.code = 500 ∧
    (guardExit 1 7 100 orphanSt).1.success = false ∧
    (completeSession 1 100 orphanSt).1.code = 500 := by
  decide

end ParkFasto
